import Mathlib

/-!
Shallow embedding of the resampling pipeline of `nitransforms/resampling.py`
(the function `apply`).

The file models:

* the data model of the spec (grids with an affine index-to-world mapping,
  spatial images, polymorphic transforms with `map` / optional `to_field`);
* the coordinate mapper and assembly stages, translated line by line from
  `apply` in `src/nitransforms/resampling.py`;
* the interpolation engine (`scipy.ndimage.map_coordinates` in the source,
  which is an external library, and the grid bookkeeping of
  `nitransforms.base`, which is not part of the sources here): these are
  modelled from the spec, see the doc comments of the individual
  definitions.

Numbers are exact rationals, so "within floating-point tolerance" statements
become exact equalities.
-/

deriving instance DecidableEq for Except

namespace NiT

section

attribute [local semireducible] Rat.add Rat.sub Rat.mul Rat.inv

/-- A world / index coordinate triple (the system is 3-D spatial). -/
abbrev Vec3 : Type := ℚ × ℚ × ℚ

/-- Modelled from the spec: an affine mapping of 3-D coordinates, given by a
3×3 linear part and a translation (the homogeneous (D+1)×(D+1) matrix of §3
with its last row dropped). -/
structure Aff where
  m00 : ℚ
  m01 : ℚ
  m02 : ℚ
  m10 : ℚ
  m11 : ℚ
  m12 : ℚ
  m20 : ℚ
  m21 : ℚ
  m22 : ℚ
  t0 : ℚ
  t1 : ℚ
  t2 : ℚ

/-- Apply an affine mapping to a coordinate triple. -/
def Aff.apply (a : Aff) (v : Vec3) : Vec3 :=
  (a.m00 * v.1 + a.m01 * v.2.1 + a.m02 * v.2.2 + a.t0,
   a.m10 * v.1 + a.m11 * v.2.1 + a.m12 * v.2.2 + a.t1,
   a.m20 * v.1 + a.m21 * v.2.1 + a.m22 * v.2.2 + a.t2)

/-- The identity affine mapping. -/
def idAff : Aff := ⟨1, 0, 0, 0, 1, 0, 0, 0, 1, 0, 0, 0⟩

/-- Modelled from the spec (§3, `nitransforms.base.ImageGrid` is not among
the sources): a sampling grid with a shape, an index-to-world affine and its
inverse (§3 requires the affine to be invertible; the model carries the
inverse explicitly, theorems assume `affinv ∘ affine = id` where needed). -/
structure Grid where
  shape : List ℕ
  affine : Aff
  affinv : Aff

/-- Number of samples of a grid. -/
def Grid.sz (g : Grid) : ℕ := g.shape.prod

/-- Decompose a row-major flat position into an `(i, j, k)` index triple for
a grid of shape `[X, Y, Z]`. -/
def unflat3 (Y Z n : ℕ) : ℕ × ℕ × ℕ := (n / (Y * Z), (n / Z) % Y, n % Z)

/-- Row-major enumeration of all integer index triples of a grid. -/
def Grid.indexList (g : Grid) : List (ℕ × ℕ × ℕ) :=
  (List.range g.sz).map (unflat3 (g.shape.getD 1 0) (g.shape.getD 2 0))

/-- Cast an integer index triple to rational coordinates. -/
def castTriple (t : ℕ × ℕ × ℕ) : Vec3 := ((t.1 : ℚ), (t.2.1 : ℚ), (t.2.2 : ℚ))

/-- Modelled from the spec (§4.1 step 2, `ImageGrid.ndcoords` is not among
the sources): the world coordinates of all samples of a grid, in row-major
order over the grid's shape. -/
def Grid.ndcoords (g : Grid) : List Vec3 :=
  (g.indexList).map (fun t => g.affine.apply (castTriple t))

/-- A spatial image: a (3-D spatial) grid, the shape of its data array
(rank 3, or 4 with a trailing component axis), and the array itself,
flattened in row-major (C) order. -/
structure SpatialImage where
  grid : Grid
  shape : List ℕ
  data : List ℚ

/-- The spec's polymorphic transform contract (§3, §6): spatial
dimensionality `ndim`, number of mapped components `length` (`len(transform)`
in the source), an optional internal reference, the `map` capability on
coordinate sets, and the optional `to_field` capability producing a dense
field (itself exposing `map`) from a caller-supplied reference. -/
structure Transform where
  ndim : ℕ
  length : ℕ
  reference : Option Grid
  mapPts : List Vec3 → List Vec3
  toField : Option (Option Grid → List Vec3 → List Vec3)

/-- The spec's error kinds (§7): `ConfigurationError` abstracts the source's
`TransformError` (no usable reference) and the engine's invalid `order`/`mode`
rejections; `ShapeMismatchError` abstracts the source's `ValueError` on a
component-count mismatch and the engine's malformed-coordinate rejection. -/
inductive Err where
  | configurationError : Err
  | shapeMismatchError : Err
deriving DecidableEq, Repr

/-- Pipeline stages, in the execution order of `apply`; `applyT` records the
stages whose work completed, so that "raised before X begins" claims are
statable. -/
inductive Stage where
  | refResolve : Stage
  | shapeCheck : Stage
  | mapping : Stage
  | engineValidate : Stage
  | prefilterStep : Stage
  | interpolate : Stage
  | assemble : Stage
deriving DecidableEq, Repr

/-- The resampled result: the output array shape and the row-major values
(the source wraps this into an image carrying the reference's affine and
header; that metadata is irrelevant to the claims). -/
structure Resampled where
  shape : List ℕ
  values : List ℚ
deriving DecidableEq, Repr

/-- Modelled from the spec (§4.2): resolve an out-of-range sample index along
one axis of size `n` by the boundary-extension policy; `nearest` clamps,
`reflect` has period `2n` (`d c b a | a b c d | d c b a`), `mirror` has
period `2n - 2` (`d c b | a b c d | c b a`), `wrap` is periodic with period
`n`.  For `constant`, out-of-bounds coordinates are caught before any index
is resolved (see `interpOne`), so its in-range behaviour (a clamp, shared
with any unrecognised mode) is never the source of an output value. -/
def resolveIdx (mode : String) (n : ℕ) (i : ℤ) : ℕ :=
  if n ≤ 1 then 0
  else if mode == "wrap" then (i % (n : ℤ)).toNat
  else if mode == "reflect" then
    let r := (i % ((2 * n : ℕ) : ℤ)).toNat
    if r < n then r else 2 * n - 1 - r
  else if mode == "mirror" then
    let r := (i % ((2 * n - 2 : ℕ) : ℤ)).toNat
    if r < n then r else 2 * n - 2 - r
  else (max i 0).toNat.min (n - 1)

/-- The nearest integer to a rational coordinate (ties go up), used by the
order-0 exact nearest-sample lookup. -/
def nearestIdx (c : ℚ) : ℤ := ⌊c + 1 / 2⌋

/-- The centred cardinal B-spline of degree `n ≥ 1`, via the truncated-power
expansion `β_n(x) = (1/n!) Σ_k (-1)^k C(n+1,k) (x + (n+1)/2 - k)_+^n`; these
are the basis weights of §4.2 ("combining the `order+1` nearest samples per
axis with B-spline basis weights"). -/
def bspline (n : ℕ) (x : ℚ) : ℚ :=
  (((List.range (n + 2)).map fun k =>
    ((-1 : ℚ)) ^ k * ((n + 1).choose k : ℚ) *
      (max 0 (x + ((n : ℚ) + 1) / 2 - (k : ℚ))) ^ n).sum) / (n.factorial : ℚ)

/-- Modelled from the spec (§4.2): the sample indices contributing along one
axis at coordinate `c`, with their weights.  `order = 0` is the exact
nearest-sample lookup ("no blending"); for `order ≥ 1` with `prefilter` at a
coordinate that is exactly an integer, the separable interpolating spline
reproduces the stored sample along that axis ("a coordinate exactly on an
integer grid point reproduces the (pre-filtered) stored value when
`order ≥ 1` and `prefilter = true`" — the property that defines the
prefilter, whose IIR realisation lives in scipy, outside these sources);
otherwise the `order+1` nearest samples contribute with B-spline basis
weights (an 8-wide window covers the support for every `order ≤ 5`; for
`order ≥ 2` at a non-integer coordinate these weights apply to the stored
samples, which is the spec's un-prefiltered "smoothed approximation" —
the spec pins down no closed form for prefiltered values there, and no
claim depends on them). -/
def axisWeights (order : ℕ) (prefilter : Bool) (c : ℚ) : List (ℤ × ℚ) :=
  if order = 0 then [(nearestIdx c, 1)]
  else if prefilter ∧ c.den = 1 then [(c.num, 1)]
  else (List.range 8).map fun o => ((⌊c⌋ - 3) + (o : ℤ), bspline order (c - ((⌊c⌋ - 3) + (o : ℤ))))

/-- Whether a coordinate tuple falls outside `[0, shape_i - 1]` on some
axis (§4.2: `cval` is "used only when `mode = constant` and the coordinate
is out of bounds"). -/
def outOfBounds (shape : List ℕ) (coord : List ℚ) : Bool :=
  (shape.zip coord).any fun p => decide (p.2 < 0) || decide (((p.1 : ℚ) - 1) < p.2)

/-- Per-axis contributing indices (boundary-resolved) and weights for a full
coordinate tuple. -/
def resolvedWeights (mode : String) (order : ℕ) (prefilter : Bool)
    (shape : List ℕ) (coord : List ℚ) : List (List (ℕ × ℚ)) :=
  (shape.zip coord).map fun p =>
    (axisWeights order prefilter p.2).map fun iw => (resolveIdx mode p.1 iw.1, iw.2)

/-- Cartesian product of the per-axis weight lists: every contributing index
tuple with the product of its per-axis weights. -/
def gather : List (List (ℕ × ℚ)) → List (List ℕ × ℚ)
  | [] => [([], 1)]
  | l :: rest => l.flatMap fun iw => (gather rest).map fun g => (iw.1 :: g.1, iw.2 * g.2)

/-- Row-major (C-order) flattening of an index tuple. -/
def flatIdx (shape : List ℕ) (is : List ℕ) : ℕ :=
  (shape.zip is).foldl (fun a p => a * p.1 + p.2) 0

/-- Modelled from the spec (§4.2): one interpolated value for one coordinate
tuple — `cval` when `mode = constant` and the coordinate is out of bounds,
otherwise the sum of the separable per-axis weights times the
boundary-resolved samples. -/
def interpOne (shape : List ℕ) (data : List ℚ) (order : ℕ) (mode : String)
    (cval : ℚ) (prefilter : Bool) (coord : List ℚ) : ℚ :=
  if mode == "constant" && outOfBounds shape coord then cval
  else ((gather (resolvedWeights mode order prefilter shape coord)).map
    fun g => g.2 * data.getD (flatIdx shape g.1) 0).sum

/-- The boundary-extension modes the engine accepts (§4.2). -/
def validMode (m : String) : Bool :=
  m == "constant" || m == "nearest" || m == "reflect" || m == "mirror" || m == "wrap"

/-- Modelled from the spec (§4.2, §7): the interpolation engine
(`scipy.ndimage.map_coordinates` in the source, an external library).  An
`order` outside `{0, …, 5}` or an unsupported `mode` is a
`ConfigurationError`, a coordinate tuple whose length differs from the data
rank is a `ShapeMismatchError`, and all three checks precede the engine's
prefiltering and interpolation work (recorded in the returned stage trace);
otherwise every coordinate tuple yields one interpolated value. -/
def mapCoordinates (shape : List ℕ) (data : List ℚ) (targets : List (List ℚ))
    (order : ℕ) (mode : String) (cval : ℚ) (prefilter : Bool) :
    List Stage × Except Err (List ℚ) :=
  if 5 < order then ([], .error .configurationError)
  else if !(validMode mode) then ([], .error .configurationError)
  else if targets.any fun c => c.length ≠ shape.length then ([], .error .shapeMismatchError)
  else
    ([Stage.engineValidate] ++ (if prefilter ∧ 2 ≤ order then [Stage.prefilterStep] else [])
      ++ [Stage.interpolate],
     .ok (targets.map (interpOne shape data order mode cval prefilter)))

/-- Lines 98–99 of `resampling.py`: `if data.ndim < transform.ndim: data =
data[..., np.newaxis]` — the shape of the data after the singleton-axis
padding. -/
def paddedShape (t : Transform) (sh : List ℕ) : List ℕ :=
  if sh.length < t.ndim then sh ++ [1] else sh

/-- A coordinate triple as a per-axis coordinate list for the engine. -/
def toCoord (v : Vec3) : List ℚ := [v.1, v.2.1, v.2.2]

/-- The coordinate targets handed to the engine (lines 102–115 of
`resampling.py`): the effective reference's sample coordinates mapped through
the transform's `map` — or, when the `to_field` capability is present,
through the dense field generated from the *caller-supplied* `reference`
argument as given (line 105 passes `reference`, not the resolved `_ref`) —
then converted to the source image's continuous index space by the inverse
of its affine (`ImageGrid(spatialimage).index`, modelled from §4.1 step 5,
truncating the homogeneous component).  For a 4-D transform (line 114–115,
modelled from §4.1 step 6, which resolves §9's open flattening-order
question sample-major so that the §4.3 reshape assigns component `c` of
sample `p` from volume `c`): each mapped point is tagged with its volume
index as a fourth coordinate. -/
def targetsOf (t : Transform) (img : SpatialImage) (reference : Option Grid)
    (ref : Grid) : List (List ℚ) :=
  let mapped : List Vec3 :=
    match t.toField with
    | some tf => tf reference (Grid.ndcoords ref)
    | none => t.mapPts (Grid.ndcoords ref)
  let idx : List Vec3 := mapped.map img.grid.affinv.apply
  if t.ndim = 4 then
    (List.range idx.length).map fun j =>
      toCoord (idx.getD j (0, 0, 0)) ++ [((j % t.length : ℕ) : ℚ)]
  else idx.map toCoord

/-- The embedding of `apply` (lines 76–139 of `resampling.py`), with a trace
of the pipeline stages whose work completed, in execution order:

1. resolve the effective reference — the caller's `reference` if given, else
   `transform.reference`; none resolvable is an error (lines 79–86);
2. reject rank-4 data whose trailing axis disagrees with `len(transform)`
   (lines 93–96), pad data of rank below `transform.ndim` with a trailing
   singleton axis (lines 98–99);
3. compute the engine's coordinate targets (lines 102–115, `targetsOf`);
4. run the interpolation engine (lines 117–125, `mapCoordinates`);
5. assemble: reshape the flat values to the reference shape, with a trailing
   component axis when the (padded) data had rank 4 (lines 127–137).

Loading images from paths (`nibabel`) and the output dtype plumbing are
external concerns not modelled; references and images arrive as values. -/
def applyT (t : Transform) (img : SpatialImage) (reference : Option Grid)
    (order : ℕ) (mode : String) (cval : ℚ) (prefilter : Bool) :
    List Stage × Except Err Resampled :=
  let ref? : Option Grid :=
    match reference with
    | none => t.reference
    | some r => some r
  match ref? with
  | none => ([], .error .configurationError)
  | some ref =>
    if img.shape.length = 4 ∧ img.shape.getLastD 0 ≠ t.length then
      ([Stage.refResolve], .error .shapeMismatchError)
    else
      let dshape2 := paddedShape t img.shape
      let targets := targetsOf t img reference ref
      let tr3 := [Stage.refResolve, Stage.shapeCheck, Stage.mapping]
      let er := mapCoordinates dshape2 img.data targets order mode cval prefilter
      match er.2 with
      | .error e => (tr3 ++ er.1, .error e)
      | .ok vals =>
        let outSh := if dshape2.length < 4 then ref.shape
          else ref.shape ++ [vals.length / Grid.sz ref]
        (tr3 ++ er.1 ++ [Stage.assemble], .ok ⟨outSh, vals⟩)

/-- The observable result of `apply` (trace dropped). -/
def apply (t : Transform) (img : SpatialImage) (reference : Option Grid)
    (order : ℕ) (mode : String) (cval : ℚ) (prefilter : Bool) :
    Except Err Resampled :=
  (applyT t img reference order mode cval prefilter).2

/-- The `c`-th component volume of an array whose trailing axis has length
`K` (used to state per-component interpolation independence). -/
def component (K c : ℕ) (data : List ℚ) : List ℚ :=
  (List.range (data.length / K)).map fun i => data.getD (i * K + c) 0

/-- A grid on the identity affine. -/
def gridOf (sh : List ℕ) : Grid := ⟨sh, idAff, idAff⟩

/-- 1×1×1 identity grid. -/
def grid1 : Grid := gridOf [1, 1, 1]

/-- 2×2×1 identity grid. -/
def grid221 : Grid := gridOf [2, 2, 1]

/-- 3×3×3 identity grid. -/
def grid333 : Grid := gridOf [3, 3, 3]

/-- A 3×3×3 image of all value 1 (the §8 boundary scenario). -/
def imgOnes : SpatialImage := ⟨grid333, [3, 3, 3], List.replicate 27 1⟩

/-- A 2×2×1 image with distinct values. -/
def imgA : SpatialImage := ⟨grid221, [2, 2, 1], [3, 1, 4, 1]⟩

/-- A 1×1×1 scalar image. -/
def imgScalar : SpatialImage := ⟨grid1, [1, 1, 1], [42]⟩

/-- A 1×1×1×3 image (three component volumes). -/
def img4d3 : SpatialImage := ⟨grid1, [1, 1, 1, 3], [10, 20, 30]⟩

/-- A 1×1×1×3 image used for the component-count mismatch scenario. -/
def imgMis : SpatialImage := ⟨grid1, [1, 1, 1, 3], [1, 2, 3]⟩

/-- The identity transform (3-D, one component, no internal reference). -/
def tId : Transform := ⟨3, 1, none, id, none⟩

/-- A pure translation by −1 along the first axis. -/
def tShift : Transform :=
  ⟨3, 1, none, (fun pts => pts.map fun v => (v.1 - 1, v.2.1, v.2.2)), none⟩

/-- A 4-D-aware transform with two volumes, both mapped identically. -/
def tVol2 : Transform := ⟨4, 2, none, (fun pts => pts ++ pts), none⟩

/-- A 4-D-aware transform with three volumes, all mapped identically. -/
def t4d3 : Transform := ⟨4, 3, none, (fun pts => pts ++ pts ++ pts), none⟩

/-- A 4-D-aware transform with seven declared components. -/
def t4d7 : Transform := ⟨4, 7, none, (fun pts => pts), none⟩

/-- A dense-field generator whose output mapping depends on whether a
reference was supplied (to observe which reference `apply` hands over). -/
def tfEx : Option Grid → List Vec3 → List Vec3 :=
  fun r pts =>
    match r with
    | none => pts
    | some _ => pts.map fun v => (v.1 + 1, v.2.1, v.2.2)

/-- A transform carrying both an internal reference and the `to_field`
capability. -/
def tField : Transform := ⟨3, 1, some grid221, id, some tfEx⟩

/-- Every boundary-extension policy resolves to an index inside the axis. -/
theorem resolveIdx_lt (mode : String) {n : ℕ} (i : ℤ) (hn : 0 < n) :
    resolveIdx mode n i < n := by
  unfold resolveIdx
  by_cases h1 : n ≤ 1
  · simp only [if_pos h1]; omega
  · have hn2 : 2 ≤ n := by omega
    have w1 : 0 ≤ i % (n : ℤ) := Int.emod_nonneg i (by omega)
    have w2 : i % (n : ℤ) < (n : ℤ) := Int.emod_lt_of_pos i (by omega)
    have r1 : 0 ≤ i % ((2 * n : ℕ) : ℤ) := Int.emod_nonneg i (by omega)
    have r2 : i % ((2 * n : ℕ) : ℤ) < ((2 * n : ℕ) : ℤ) := Int.emod_lt_of_pos i (by omega)
    have m1 : 0 ≤ i % ((2 * n - 2 : ℕ) : ℤ) := Int.emod_nonneg i (by omega)
    have m2 : i % ((2 * n - 2 : ℕ) : ℤ) < ((2 * n - 2 : ℕ) : ℤ) :=
      Int.emod_lt_of_pos i (by omega)
    have c1 : ((max i 0).toNat).min (n - 1) ≤ n - 1 := Nat.min_le_right _ _
    simp only [if_neg h1]
    split <;> [skip; split <;> [split; split <;> [split; skip]]] <;> omega

/-- Every boundary-extension policy leaves an in-range index unchanged. -/
theorem resolveIdx_coe (mode : String) {n j : ℕ} (hj : j < n) :
    resolveIdx mode n (j : ℤ) = j := by
  unfold resolveIdx
  by_cases h1 : n ≤ 1
  · simp only [if_pos h1]; omega
  · have hn2 : 2 ≤ n := by omega
    have w1 : (j : ℤ) % (n : ℤ) = j := Int.emod_eq_of_lt (by omega) (by omega)
    have r1 : (j : ℤ) % ((2 * n : ℕ) : ℤ) = j := Int.emod_eq_of_lt (by omega) (by omega)
    have m1 : (j : ℤ) % ((2 * n - 2 : ℕ) : ℤ) = j := Int.emod_eq_of_lt (by omega) (by omega)
    have c2 : ((max (j : ℤ) 0).toNat).min (n - 1) = j := by
      rw [max_eq_left (by positivity : (0 : ℤ) ≤ (j : ℤ))]
      simp
      omega
    simp only [if_neg h1]
    split <;> [skip; split <;> [split; split <;> [split; skip]]] <;> omega

/-- `gather` over per-axis singleton weight-1 lists is the single index tuple
with weight 1. -/
theorem gather_singletons (ps : List ℕ) :
    gather (ps.map fun i => [(i, (1 : ℚ))]) = [(ps, 1)] := by
  induction ps with
  | nil => rfl
  | cons p ps ih => simp [gather, ih]

/-- Every tuple produced by `gather` picks one entry from each per-axis
list. -/
theorem gather_mem {ws : List (List (ℕ × ℚ))} {g : List ℕ × ℚ}
    (h : g ∈ gather ws) :
    List.Forall₂ (fun i l => ∃ w, (i, w) ∈ l) g.1 ws := by
  induction ws generalizing g with
  | nil =>
    simp only [gather, List.mem_singleton] at h
    subst h; exact List.Forall₂.nil
  | cons l rest ih =>
    simp only [gather, List.mem_flatMap, List.mem_map] at h
    obtain ⟨iw, hiw, g', hg', rfl⟩ := h
    exact List.Forall₂.cons ⟨iw.2, hiw⟩ (ih hg')

/-- A row-major flat index of an in-range index tuple is below the array
size. -/
theorem flatIdx_lt_aux {is shape : List ℕ}
    (h : List.Forall₂ (· < ·) is shape) :
    ∀ a, (shape.zip is).foldl (fun x p => x * p.1 + p.2) a < (a + 1) * shape.prod := by
  induction h with
  | nil => intro a; simp
  | @cons i n is' shape' hin _ ih =>
    intro a
    have h1 := ih (a * n + i)
    have h2 : (a * n + i + 1) * shape'.prod ≤ (a + 1) * (n * shape'.prod) := by
      have : a * n + i + 1 ≤ (a + 1) * n := by nlinarith
      calc (a * n + i + 1) * shape'.prod ≤ ((a + 1) * n) * shape'.prod :=
            Nat.mul_le_mul_right _ this
        _ = (a + 1) * (n * shape'.prod) := by ring
    simpa [List.zip_cons_cons, List.prod_cons] using Nat.lt_of_lt_of_le h1 h2

/-- `flatIdx` of an in-range index tuple is below the array size. -/
theorem flatIdx_lt {shape is : List ℕ} (h : List.Forall₂ (· < ·) is shape) :
    flatIdx shape is < shape.prod := by
  simpa [flatIdx] using flatIdx_lt_aux h 0

/-- Recomposing the row-major decomposition of a flat position gives the
position back. -/
theorem flat_unflat (Y Z n : ℕ) :
    (n / (Y * Z) * Y + n / Z % Y) * Z + n % Z = n := by
  have h1 : n / (Y * Z) = n / Z / Y := by
    rw [Nat.div_div_eq_div_mul, Nat.mul_comm]
  have e1 : Y * (n / Z / Y) + n / Z % Y = n / Z := Nat.div_add_mod (n / Z) Y
  have e2 : Z * (n / Z) + n % Z = n := Nat.div_add_mod n Z
  rw [h1]
  conv_rhs => rw [← e2]
  conv_rhs => rw [← e1]
  ring

/-- At a coordinate that is exactly an in-range integer grid point, with
`prefilter` and `order ≥ 1`, the engine returns the stored sample (the
interpolating-spline property of §4.2), for every boundary mode. -/
theorem interpOne_at_integer (mode : String) {X Y Z : ℕ} (data : List ℚ)
    {order : ℕ} (cval : ℚ) {i j k : ℕ} (hi : i < X) (hj : j < Y) (hk : k < Z)
    (ho : order ≠ 0) :
    interpOne [X, Y, Z] data order mode cval true [(i : ℚ), (j : ℚ), (k : ℚ)] =
      data.getD ((i * Y + j) * Z + k) 0 := by
  have hX : ((i : ℚ)) + 1 ≤ (X : ℚ) := by exact_mod_cast Nat.succ_le_of_lt hi
  have hY : ((j : ℚ)) + 1 ≤ (Y : ℚ) := by exact_mod_cast Nat.succ_le_of_lt hj
  have hZ : ((k : ℚ)) + 1 ≤ (Z : ℚ) := by exact_mod_cast Nat.succ_le_of_lt hk
  have hoob : outOfBounds [X, Y, Z] [(i : ℚ), (j : ℚ), (k : ℚ)] = false := by
    simp only [outOfBounds, List.zip_cons_cons, List.zip_nil_right, List.any_cons,
      List.any_nil, Bool.or_false, Bool.or_eq_false_iff, decide_eq_false_iff_not, not_lt]
    refine ⟨⟨by positivity, by linarith⟩, ⟨by positivity, by linarith⟩,
      by positivity, by linarith⟩
  unfold interpOne
  rw [hoob]
  simp only [Bool.and_false, Bool.false_eq_true, if_false]
  simp only [resolvedWeights, axisWeights, ho, if_false, Rat.den_natCast, Rat.num_natCast,
    List.zip_cons_cons, List.zip_nil_right, List.map_cons, List.map_nil, and_self, if_true,
    resolveIdx_coe mode hi, resolveIdx_coe mode hj, resolveIdx_coe mode hk]
  simp only [gather, List.flatMap_cons, List.flatMap_nil, List.map_cons, List.map_nil,
    List.append_nil, mul_one, one_mul, List.sum_cons, List.sum_nil, add_zero]
  simp only [flatIdx, List.zip_cons_cons, List.zip_nil_right, List.foldl_cons,
    List.foldl_nil, Nat.zero_mul, Nat.zero_add]

/-- Reading every position of a list back in order reproduces the list. -/
theorem map_getD_range {l : List ℚ} {L : ℕ} (h : l.length = L) :
    (List.range L).map (fun n => l.getD n 0) = l := by
  apply List.ext_getElem (by simp [h])
  intro i h1 h2
  simp only [List.getElem_map, List.getElem_range]
  exact List.getD_eq_getElem l 0 h2

/-- C1.  For every grid `G` and every source array `A` on `G`, `apply` with
an identity transform, reference `G`, any order `1 ≤ order ≤ 5` and
`prefilter = true` (remaining parameters at their defaults) returns exactly
`A`, shaped on `G` — the identity-transform property of §8.  Exact rational
arithmetic makes "within floating-point tolerance" an equality. -/
theorem identity_resample_exact
    (G : Grid) (X Y Z : ℕ) (img : SpatialImage) (t : Transform) (order : ℕ)
    (hG : G.shape = [X, Y, Z])
    (himg : img.grid = G) (hish : img.shape = [X, Y, Z])
    (hlen : img.data.length = X * Y * Z)
    (hinv : ∀ v, G.affinv.apply (G.affine.apply v) = v)
    (ht : t.mapPts = id) (hnd : t.ndim = 3) (htf : t.toField = none)
    (ho1 : 1 ≤ order) (ho5 : order ≤ 5) :
    apply t img (some G) order "constant" 0 true = .ok ⟨[X, Y, Z], img.data⟩ := by
  have hsz : G.sz = X * Y * Z := by
    simp only [Grid.sz, hG, List.prod_cons, List.prod_nil, mul_one]
    ring
  have htg : targetsOf t img (some G) G =
      (List.range (X * Y * Z)).map (fun n => toCoord (castTriple (unflat3 Y Z n))) := by
    simp only [targetsOf, htf, ht, himg, hnd, id]
    have h1 : (Grid.ndcoords G).map (G.affinv.apply) = (Grid.indexList G).map castTriple := by
      simp only [Grid.ndcoords, List.map_map]
      apply List.map_congr_left
      intro a _
      exact hinv _
    rw [h1]
    simp only [Grid.indexList, hsz, hG, List.map_map]
    norm_num
  have hvals : ((List.range (X * Y * Z)).map
        (fun n => toCoord (castTriple (unflat3 Y Z n)))).map
      (interpOne [X, Y, Z] img.data order "constant" 0 true) = img.data := by
    rw [List.map_map]
    have hpt : ∀ n ∈ List.range (X * Y * Z),
        (interpOne [X, Y, Z] img.data order "constant" 0 true ∘
          fun n => toCoord (castTriple (unflat3 Y Z n))) n = img.data.getD n 0 := by
      intro n hn
      rw [List.mem_range] at hn
      have h0 : 0 < X * Y * Z := Nat.lt_of_le_of_lt (Nat.zero_le n) hn
      have hXp : 0 < X := by
        rcases Nat.eq_zero_or_pos X with h | h
        · subst h; simp at h0
        · exact h
      have hYp : 0 < Y := by
        rcases Nat.eq_zero_or_pos Y with h | h
        · subst h; simp at h0
        · exact h
      have hZp : 0 < Z := by
        rcases Nat.eq_zero_or_pos Z with h | h
        · subst h; simp at h0
        · exact h
      have hYZp : 0 < Y * Z := Nat.mul_pos hYp hZp
      have hi : n / (Y * Z) < X :=
        (Nat.div_lt_iff_lt_mul hYZp).mpr (by rw [← Nat.mul_assoc]; exact hn)
      have hj : (n / Z) % Y < Y := Nat.mod_lt _ hYp
      have hk : n % Z < Z := Nat.mod_lt _ hZp
      show interpOne [X, Y, Z] img.data order "constant" 0 true
        (toCoord (castTriple (unflat3 Y Z n))) = img.data.getD n 0
      rw [show toCoord (castTriple (unflat3 Y Z n)) =
        [((n / (Y * Z) : ℕ) : ℚ), (((n / Z) % Y : ℕ) : ℚ), ((n % Z : ℕ) : ℚ)] from rfl]
      rw [interpOne_at_integer "constant" img.data 0 hi hj hk (by omega)]
      rw [flat_unflat]
    rw [List.map_congr_left hpt]
    exact map_getD_range hlen
  have hpad : paddedShape t [X, Y, Z] = [X, Y, Z] := by
    simp [paddedShape, hnd]
  have hmc : mapCoordinates [X, Y, Z] img.data (targetsOf t img (some G) G)
      order "constant" 0 true =
      ([Stage.engineValidate] ++ (if True ∧ 2 ≤ order then [Stage.prefilterStep] else [])
        ++ [Stage.interpolate], .ok img.data) := by
    unfold mapCoordinates
    rw [if_neg (by omega : ¬ 5 < order)]
    rw [if_neg (by norm_num [validMode] : ¬ (!validMode "constant") = true)]
    rw [if_neg (by
      rw [htg]
      simp [toCoord] : ¬ ((targetsOf t img (some G) G).any
        fun c => c.length ≠ ([X, Y, Z] : List ℕ).length) = true)]
    rw [htg, hvals]
    simp
  unfold apply applyT
  simp only [hish, hpad, hmc, hG]
  norm_num

/-- Witness for C1 at a concrete 2×2×1 grid and array. -/
theorem identity_resample_exact_witness :
    apply tId imgA (some grid221) 3 "constant" 0 true = .ok ⟨[2, 2, 1], [3, 1, 4, 1]⟩ :=
  identity_resample_exact grid221 2 2 1 imgA tId 3 rfl rfl rfl (by decide)
    (by intro v; obtain ⟨a, b, c⟩ := v; simp [grid221, gridOf, idAff, Aff.apply])
    rfl rfl rfl (by norm_num) (by norm_num)

/-- C5.  With `reference = None` and a transform that has no internal
reference, `apply` fails with a configuration error (the source's
`TransformError`, line 85–86) before any stage's work. -/
theorem missing_reference_rejected (t : Transform) (img : SpatialImage)
    (order : ℕ) (mode : String) (cval : ℚ) (prefilter : Bool)
    (h : t.reference = none) :
    applyT t img none order mode cval prefilter = ([], .error .configurationError) := by
  simp [applyT, h]

/-- Witness for C5. -/
theorem missing_reference_rejected_witness :
    applyT tId imgA none 3 "constant" 0 true = ([], .error .configurationError) :=
  missing_reference_rejected tId imgA 3 "constant" 0 true rfl

/-- C4.  Rank-4 data whose trailing axis disagrees with `len(transform)` is
rejected with a shape-mismatch error whose stage trace contains neither the
coordinate-mapping stage nor any engine stage: the check (lines 93–96) fires
before any mapping or interpolation work. -/
theorem component_mismatch_fails_fast (t : Transform) (img : SpatialImage)
    (r : Grid) (order : ℕ) (mode : String) (cval : ℚ) (prefilter : Bool)
    (h4 : img.shape.length = 4) (hk : img.shape.getLastD 0 ≠ t.length) :
    applyT t img (some r) order mode cval prefilter =
      ([Stage.refResolve], .error .shapeMismatchError) := by
  simp only [applyT]
  rw [if_pos ⟨h4, hk⟩]

/-- Witness for C4: trailing length 3 against a two-component transform. -/
theorem component_mismatch_fails_fast_witness :
    applyT tVol2 imgMis grid1 3 "constant" 0 true =
      ([Stage.refResolve], .error .shapeMismatchError) :=
  component_mismatch_fails_fast tVol2 imgMis grid1 3 "constant" 0 true rfl (by decide)

/-- C9.  When the transform exposes `to_field`, `apply` behaves exactly as
if its `map` were replaced by the dense field generated from the raw
caller-supplied `reference` argument (line 105 passes `reference`, which is
`None` when the caller omitted it, even if the transform's own reference was
resolved as the effective reference): coordinates are mapped through the
generated field, not through the transform's `map`. -/
theorem to_field_gets_raw_reference (t : Transform)
    (tf : Option Grid → List Vec3 → List Vec3) (img : SpatialImage)
    (reference : Option Grid) (order : ℕ) (mode : String) (cval : ℚ)
    (prefilter : Bool) (h : t.toField = some tf) :
    applyT t img reference order mode cval prefilter =
      applyT { t with mapPts := tf reference, toField := none }
        img reference order mode cval prefilter := by
  have htg : targetsOf t img reference =
      targetsOf { t with mapPts := tf reference, toField := none } img reference := by
    funext ref
    simp [targetsOf, h]
  unfold applyT
  rw [htg]
  rfl

/-- Witness for C9: a field-generating transform with an internal reference,
called with `reference = None` — the field is generated from `None`. -/
theorem to_field_gets_raw_reference_witness :
    applyT tField imgA none 0 "constant" 0 true =
      applyT { tField with mapPts := tfEx none, toField := none }
        imgA none 0 "constant" 0 true :=
  to_field_gets_raw_reference tField tfEx imgA none 0 "constant" 0 true rfl

/-- C8.  The §8 boundary scenario: a 3×3×3 all-ones array sampled at source
index coordinate (−1, 0, 0) with `order = 0` yields `cval = 5` under
`mode = "constant"` and 1 under `mode = "nearest"`, and neither out-of-bounds
access is an error. -/
theorem constant_mode_boundary_scenario :
    apply tShift imgOnes (some grid1) 0 "constant" 5 true = .ok ⟨[1, 1, 1], [5]⟩ ∧
    apply tShift imgOnes (some grid1) 0 "nearest" 5 true = .ok ⟨[1, 1, 1], [1]⟩ :=
  ⟨by decide, by decide⟩

/-- Counterexample for C6 as stated: an invalid `order = 7` is rejected with
a configuration error, but only after the coordinate-mapping stage has run —
the trace contains `mapping`, so the error is not "detected before any array
work (mapping, prefiltering, or interpolation) begins". -/
theorem invalid_order_after_mapping_cex :
    applyT tId imgA (some grid221) 7 "constant" 0 true =
      ([Stage.refResolve, Stage.shapeCheck, Stage.mapping], .error .configurationError) ∧
    Stage.mapping ∈ [Stage.refResolve, Stage.shapeCheck, Stage.mapping] :=
  ⟨by decide, by decide⟩

/-- The singleton-axis padding does not change the number of samples. -/
theorem paddedShape_prod (t : Transform) (sh : List ℕ) :
    (paddedShape t sh).prod = sh.prod := by
  unfold paddedShape
  split
  · simp
  · rfl

/-- The singleton-axis padding preserves positivity of the axes. -/
theorem paddedShape_pos {t : Transform} {sh : List ℕ} (h : ∀ n ∈ sh, 0 < n) :
    ∀ n ∈ paddedShape t sh, 0 < n := by
  unfold paddedShape
  split
  · intro n hn
    rcases List.mem_append.1 hn with h1 | h1
    · exact h n h1
    · simp at h1
      omega
  · exact h

/-- Inversion of a successful engine run: the values are the pointwise
interpolation of the targets, and every coordinate tuple had the data's
rank. -/
theorem mapCoordinates_ok {shape : List ℕ} {data : List ℚ}
    {targets : List (List ℚ)} {order : ℕ} {mode : String} {cval : ℚ}
    {prefilter : Bool} {vals : List ℚ}
    (h : (mapCoordinates shape data targets order mode cval prefilter).2 = .ok vals) :
    vals = targets.map (interpOne shape data order mode cval prefilter) ∧
      ∀ c ∈ targets, c.length = shape.length := by
  unfold mapCoordinates at h
  by_cases h1 : 5 < order
  · rw [if_pos h1] at h
    simp at h
  · rw [if_neg h1] at h
    by_cases h2 : (!validMode mode) = true
    · rw [if_pos h2] at h
      simp at h
    · rw [if_neg h2] at h
      by_cases h3 : (targets.any fun c => c.length ≠ shape.length) = true
      · rw [if_pos h3] at h
        simp at h
      · rw [if_neg h3] at h
        have h' : Except.ok (targets.map (interpOne shape data order mode cval prefilter)) =
            Except.ok vals := h
        refine ⟨(Except.ok.inj h').symm, ?_⟩
        intro c hc
        by_contra hne
        exact h3 (List.any_eq_true.2 ⟨c, hc, decide_eq_true hne⟩)

/-- Inversion of a successful `apply`: the shape check passed, the values are
the interpolations of the coordinate targets on the padded data shape, every
target tuple has the padded rank, and the output shape is the reference
shape with the trailing component axis exactly when the padded data has
rank 4 (lines 127–137). -/
theorem apply_ok_inv {t : Transform} {img : SpatialImage}
    {reference : Option Grid} {ref : Grid} {order : ℕ} {mode : String}
    {cval : ℚ} {prefilter : Bool} {res : Resampled}
    (href : (match reference with | none => t.reference | some r => some r) = some ref)
    (hres : apply t img reference order mode cval prefilter = .ok res) :
    ¬(img.shape.length = 4 ∧ img.shape.getLastD 0 ≠ t.length) ∧
      res.values = (targetsOf t img reference ref).map
        (interpOne (paddedShape t img.shape) img.data order mode cval prefilter) ∧
      (∀ c ∈ targetsOf t img reference ref,
        c.length = (paddedShape t img.shape).length) ∧
      res.shape = (if (paddedShape t img.shape).length < 4 then ref.shape
        else ref.shape ++ [res.values.length / Grid.sz ref]) := by
  unfold apply applyT at hres
  rw [href] at hres
  simp only [] at hres
  by_cases hchk : img.shape.length = 4 ∧ img.shape.getLastD 0 ≠ t.length
  · rw [if_pos hchk] at hres
    simp at hres
  · rw [if_neg hchk] at hres
    rcases hmc : (mapCoordinates (paddedShape t img.shape) img.data
        (targetsOf t img reference ref) order mode cval prefilter).2 with e | vals
    · rw [hmc] at hres
      simp at hres
    · rw [hmc] at hres
      obtain ⟨hvals, hclen⟩ := mapCoordinates_ok hmc
      have h' : Except.ok (⟨if (paddedShape t img.shape).length < 4 then ref.shape
            else ref.shape ++ [vals.length / Grid.sz ref], vals⟩ : Resampled) =
          Except.ok res := hres
      have h2 := Except.ok.inj h'
      refine ⟨hchk, ?_, hclen, ?_⟩
      · rw [← h2, hvals]
      · rw [← h2, hvals]

/-- Every coordinate target of a 4-D transform is a 4-tuple (spatial triple
plus volume index). -/
theorem targets_len_of_ndim4 {t : Transform} {img : SpatialImage}
    {reference : Option Grid} {ref : Grid} (hnd : t.ndim = 4) :
    ∀ c ∈ targetsOf t img reference ref, c.length = 4 := by
  intro c hc
  simp only [targetsOf, hnd] at hc
  norm_num at hc
  obtain ⟨j, hj, rfl⟩ := hc
  simp [toCoord]

/-- Every coordinate target of a non-4-D transform is a spatial triple. -/
theorem targets_len_of_ndim3 {t : Transform} {img : SpatialImage}
    {reference : Option Grid} {ref : Grid} (hnd : t.ndim ≠ 4) :
    ∀ c ∈ targetsOf t img reference ref, c.length = 3 := by
  intro c hc
  simp only [targetsOf, if_neg hnd] at hc
  obtain ⟨v, hv, rfl⟩ := List.mem_map.1 hc
  simp [toCoord]

/-- With `order = 0` every interpolated value is an exact element of the
data array, or `cval` for an out-of-bounds coordinate under
`mode = constant` — the nearest-sample lookup never blends. -/
theorem interpOne_order0_mem {shape : List ℕ} {data : List ℚ} {mode : String}
    {cval : ℚ} {prefilter : Bool} {c : List ℚ}
    (hlen : c.length = shape.length) (hpos : ∀ n ∈ shape, 0 < n)
    (hdl : data.length = shape.prod) :
    interpOne shape data 0 mode cval prefilter c ∈ data ∨
      interpOne shape data 0 mode cval prefilter c = cval := by
  unfold interpOne
  split
  · right
    rfl
  · left
    have hw : resolvedWeights mode 0 prefilter shape c =
        ((shape.zip c).map fun p => resolveIdx mode p.1 (nearestIdx p.2)).map
          fun i => [(i, (1 : ℚ))] := by
      simp only [resolvedWeights, axisWeights, if_pos rfl, List.map_cons, List.map_nil,
        List.map_map]
      rfl
    rw [hw, gather_singletons]
    simp only [List.map_cons, List.map_nil, List.sum_cons, List.sum_nil, add_zero, one_mul]
    have hfa : List.Forall₂ (· < ·)
        ((shape.zip c).map fun p => resolveIdx mode p.1 (nearestIdx p.2)) shape := by
      rw [List.forall₂_iff_get]
      refine ⟨by simp [hlen], ?_⟩
      intro i h1 h2
      simp only [List.get_eq_getElem, List.getElem_map, List.getElem_zip]
      exact resolveIdx_lt mode _ (hpos _ (List.getElem_mem h2))
    have hlt := flatIdx_lt hfa
    rw [List.getD_eq_getElem data 0 (by rw [hdl]; exact hlt)]
    exact List.getElem_mem _

/-- C7.  A successful `apply` with `order = 0` produces only values that are
exact elements of the input array, or the `cval` fill — no blending of
samples, for every transform (hence every coordinate set), mode and
boundary situation. -/
theorem order0_no_blending (t : Transform) (img : SpatialImage)
    (reference : Option Grid) (mode : String) (cval : ℚ) (prefilter : Bool)
    (res : Resampled)
    (hdl : img.data.length = img.shape.prod)
    (hpos : ∀ n ∈ img.shape, 0 < n)
    (hres : apply t img reference 0 mode cval prefilter = .ok res) :
    ∀ v ∈ res.values, v ∈ img.data ∨ v = cval := by
  rcases href : (match reference with | none => t.reference | some r => some r) with _ | ref
  · exfalso
    unfold apply applyT at hres
    rw [href] at hres
    simp at hres
  · obtain ⟨-, hvals, hclen, -⟩ := apply_ok_inv href hres
    intro v hv
    rw [hvals] at hv
    obtain ⟨c, hc, rfl⟩ := List.mem_map.1 hv
    exact interpOne_order0_mem (hclen c hc) (paddedShape_pos hpos)
      (by rw [paddedShape_prod]; exact hdl)

/-- Witness for C7: an out-of-bounds wrap-mode order-0 lookup still returns
an exact input element. -/
theorem order0_no_blending_witness :
    (1 : ℚ) ∈ imgOnes.data ∨ (1 : ℚ) = 9 :=
  order0_no_blending tShift imgOnes (some grid1) "wrap" 9 true
    ⟨[1, 1, 1], [1]⟩ (by decide) (by decide) (by decide) 1 (by decide)

/-- C10.  A source array of rank below the transform's `ndim` (by the §3
data model the rank is at least 3, so this is a 3-D array with a 4-D
transform) is not rejected: the component-count check applies only to rank-4
arrays, the data is padded with a trailing singleton axis (lines 98–99), and
the call succeeds. -/
theorem lower_rank_data_padded (t : Transform) (img : SpatialImage) (r : Grid)
    (h3 : 3 ≤ img.shape.length) (hlt : img.shape.length < t.ndim)
    (hnd4 : t.ndim ≤ 4) :
    (apply t img (some r) 3 "constant" 0 true).isOk = true ∧
      paddedShape t img.shape = img.shape ++ [1] := by
  have hr3 : img.shape.length = 3 := by omega
  have hnd : t.ndim = 4 := by omega
  have hpadded : paddedShape t img.shape = img.shape ++ [1] := by
    unfold paddedShape
    rw [if_pos hlt]
  refine ⟨?_, hpadded⟩
  have hmc2 : (mapCoordinates (paddedShape t img.shape) img.data
      (targetsOf t img (some r) r) 3 "constant" 0 true).2 =
      .ok ((targetsOf t img (some r) r).map
        (interpOne (paddedShape t img.shape) img.data 3 "constant" 0 true)) := by
    unfold mapCoordinates
    rw [if_neg (by omega)]
    rw [if_neg (by norm_num [validMode])]
    rw [if_neg ?hany]
    case hany =>
      intro hx
      rw [List.any_eq_true] at hx
      obtain ⟨c, hc, hne⟩ := hx
      rw [decide_eq_true_eq] at hne
      exact hne (by rw [targets_len_of_ndim4 hnd c hc, hpadded]; simp [hr3])
  unfold apply applyT
  simp only []
  rw [if_neg (by simp [hr3])]
  simp only [hmc2]
  rfl

/-- C6 amended: an `order` outside {0,…,5} or an unsupported `mode` is
rejected with a `ConfigurationError` on entry to the interpolation engine —
before any prefiltering or interpolation work, though after the coordinate
mapping has already been computed (the trace ends at the mapping stage). -/
theorem invalid_order_mode_config_error (t : Transform) (img : SpatialImage)
    (r : Grid) (order : ℕ) (mode : String) (cval : ℚ) (prefilter : Bool)
    (hbad : 5 < order ∨ validMode mode = false)
    (hok : ¬(img.shape.length = 4 ∧ img.shape.getLastD 0 ≠ t.length)) :
    applyT t img (some r) order mode cval prefilter =
      ([Stage.refResolve, Stage.shapeCheck, Stage.mapping],
        .error .configurationError) ∧
      Stage.prefilterStep ∉
        ([Stage.refResolve, Stage.shapeCheck, Stage.mapping] : List Stage) ∧
      Stage.interpolate ∉
        ([Stage.refResolve, Stage.shapeCheck, Stage.mapping] : List Stage) := by
  have hmc : mapCoordinates (paddedShape t img.shape) img.data
      (targetsOf t img (some r) r) order mode cval prefilter =
      ([], .error .configurationError) := by
    unfold mapCoordinates
    rcases hbad with h | h
    · rw [if_pos h]
    · by_cases h5 : 5 < order
      · rw [if_pos h5]
      · rw [if_neg h5, if_pos (by simp [h])]
  refine ⟨?_, by decide, by decide⟩
  unfold applyT
  simp only []
  rw [if_neg hok]
  simp only [hmc]
  rfl

/-- Witness for the amended C6: an unsupported mode string. -/
theorem invalid_order_mode_config_error_witness :
    applyT tId imgA (some grid221) 3 "bogus" 0 true =
      ([Stage.refResolve, Stage.shapeCheck, Stage.mapping],
        .error .configurationError) ∧
      Stage.prefilterStep ∉
        ([Stage.refResolve, Stage.shapeCheck, Stage.mapping] : List Stage) ∧
      Stage.interpolate ∉
        ([Stage.refResolve, Stage.shapeCheck, Stage.mapping] : List Stage) :=
  invalid_order_mode_config_error tId imgA grid221 3 "bogus" 0 true
    (Or.inr (by decide)) (by decide)

/-- Counterexample for C2 as stated: a rank-3 source array with a 4-D
transform of two components — the source rank (3) does not exceed the
spatial dimensionality (3), yet the output carries a trailing axis of
length 2, so the claimed "iff" fails. -/
theorem trailing_axis_cex :
    apply tVol2 imgScalar (some grid1) 0 "constant" 7 true =
      .ok ⟨[1, 1, 1, 2], [42, 7]⟩ ∧
    ¬((3 : ℕ) > 3) ∧ ([1, 1, 1, 2] : List ℕ) ≠ [1, 1, 1] :=
  ⟨by decide, by decide, by decide⟩

/-- C2 amended: a successful `apply` with an image-grid reference returns
the reference grid's shape, with a trailing axis of length `len(transform)`
exactly when the singleton-padded data has rank 4 — that is, when the source
rank exceeds 3 *or* the source was padded because its rank is below the
transform's `ndim` (lines 127–137 test the padded data's rank, not the
original one). -/
theorem output_shape_amended (t : Transform) (img : SpatialImage) (r : Grid)
    (X' Y' Z' : ℕ) (order : ℕ) (mode : String) (cval : ℚ) (prefilter : Bool)
    (res : Resampled)
    (hrsh : r.shape = [X', Y', Z']) (hpos : 0 < X' * Y' * Z')
    (htf : t.toField = none) (htl : 0 < t.length)
    (hmap3 : t.ndim ≠ 4 → ∀ pts, (t.mapPts pts).length = pts.length)
    (hmap4 : t.ndim = 4 → ∀ pts, (t.mapPts pts).length = t.length * pts.length)
    (hres : apply t img (some r) order mode cval prefilter = .ok res) :
    res.shape = r.shape ++
      (if (paddedShape t img.shape).length = 4 then [t.length] else []) := by
  obtain ⟨-, hvals, hclen, hsh⟩ := apply_ok_inv rfl hres
  have hszr : Grid.sz r = X' * Y' * Z' := by
    simp only [Grid.sz, hrsh, List.prod_cons, List.prod_nil, mul_one]
    ring
  have hnc : (Grid.ndcoords r).length = X' * Y' * Z' := by
    simp [Grid.ndcoords, Grid.indexList, hszr]
  by_cases hnd : t.ndim = 4
  · have htlen : (targetsOf t img (some r) r).length = t.length * (X' * Y' * Z') := by
      simp [targetsOf, htf, hnd, hmap4 hnd, hnc]
    have hne : targetsOf t img (some r) r ≠ [] := by
      intro h0
      have hp := Nat.mul_pos htl hpos
      rw [← htlen, h0] at hp
      simp at hp
    obtain ⟨c0, hc0⟩ := List.exists_mem_of_ne_nil _ hne
    have hp4 : (paddedShape t img.shape).length = 4 := by
      rw [← hclen c0 hc0, targets_len_of_ndim4 hnd c0 hc0]
    rw [hsh, if_neg (by omega), if_pos hp4, hvals]
    rw [List.length_map, htlen, hszr]
    rw [Nat.mul_div_cancel _ hpos]
  · have htlen : (targetsOf t img (some r) r).length = X' * Y' * Z' := by
      simp [targetsOf, htf, if_neg hnd, hmap3 hnd, hnc]
    have hne : targetsOf t img (some r) r ≠ [] := by
      intro h0
      rw [← htlen, h0] at hpos
      simp at hpos
    obtain ⟨c0, hc0⟩ := List.exists_mem_of_ne_nil _ hne
    have hp3 : (paddedShape t img.shape).length = 3 := by
      rw [← hclen c0 hc0, targets_len_of_ndim3 hnd c0 hc0]
    rw [hsh, if_pos (by omega), if_neg (by omega)]
    simp

/-- Witness for the amended C2: a rank-4 source through a three-component
4-D transform carries the trailing component axis. -/
theorem output_shape_amended_witness :
    (⟨[1, 1, 1, 3], [10, 20, 30]⟩ : Resampled).shape = grid1.shape ++
      (if (paddedShape t4d3 img4d3.shape).length = 4 then [t4d3.length] else []) :=
  output_shape_amended t4d3 img4d3 grid1 1 1 1 3 "constant" 0 true
    ⟨[1, 1, 1, 3], [10, 20, 30]⟩ rfl (by decide) rfl (by decide)
    (fun h => absurd rfl h)
    (fun _ pts => by simp [t4d3]; omega)
    (by decide)

/-- Witness for C10: a rank-3 array with a 4-D transform declaring 7
components succeeds (the mismatch check does not apply). -/
theorem lower_rank_data_padded_witness :
    (apply t4d7 imgScalar (some grid1) 3 "constant" 0 true).isOk = true ∧
      paddedShape t4d7 imgScalar.shape = imgScalar.shape ++ [1] :=
  lower_rank_data_padded t4d7 imgScalar grid1 (by decide) (by decide) (by decide)

/-- `getD` through a `map`, for an in-range position (any defaults). -/
theorem getD_map_of_lt {α β : Type} (f : α → β) (l : List α) (d : α) (d' : β)
    {j : ℕ} (hj : j < l.length) :
    (l.map f).getD j d' = f (l.getD j d) := by
  rw [List.getD_eq_getElem _ _ (by simpa using hj), List.getD_eq_getElem _ _ hj]
  simp

/-- `gather` with an extra trailing weight-1 singleton axis appends that
index to every tuple. -/
theorem gather_append_single (ws : List (List (ℕ × ℚ))) (i : ℕ) :
    gather (ws ++ [[(i, (1 : ℚ))]]) = (gather ws).map fun g => (g.1 ++ [i], g.2) := by
  induction ws with
  | nil => simp [gather]
  | cons l rest ih =>
    have h1 : gather ((l :: rest) ++ [[(i, (1 : ℚ))]]) =
        l.flatMap fun iw => (gather (rest ++ [[(i, (1 : ℚ))]])).map
          fun g => (iw.1 :: g.1, iw.2 * g.2) := rfl
    have h2 : gather (l :: rest) =
        l.flatMap fun iw => (gather rest).map fun g => (iw.1 :: g.1, iw.2 * g.2) := rfl
    rw [h1, ih, h2, List.map_flatMap]
    congr 1
    funext iw
    rw [List.map_map, List.map_map]
    rfl

/-- Flattening with one appended axis of size `K` and index `i`. -/
theorem flatIdx_append_single (shape is : List ℕ) (K i : ℕ)
    (hl : is.length = shape.length) :
    flatIdx (shape ++ [K]) (is ++ [i]) = flatIdx shape is * K + i := by
  unfold flatIdx
  rw [List.zip_append hl.symm, List.foldl_append]
  rfl

/-- Reading the `c`-th component volume at a flat spatial position. -/
theorem component_getD {K c : ℕ} (data : List ℚ) {i : ℕ}
    (hi : i < data.length / K) :
    (component K c data).getD i 0 = data.getD (i * K + c) 0 := by
  unfold component
  rw [List.getD_eq_getElem _ 0 (by simp [hi])]
  simp

/-- Every index tuple produced by the resolved per-axis weights is in range
of the shape. -/
theorem resolved_bound {mode : String} {order : ℕ} {prefilter : Bool}
    {shape : List ℕ} {coord : List ℚ}
    (hlen : coord.length = shape.length) (hpos : ∀ n ∈ shape, 0 < n)
    {g : List ℕ × ℚ}
    (hg : g ∈ gather (resolvedWeights mode order prefilter shape coord)) :
    List.Forall₂ (· < ·) g.1 shape := by
  have h1 := gather_mem hg
  rw [List.forall₂_iff_get] at h1
  obtain ⟨hl1, hget⟩ := h1
  have hlw : (resolvedWeights mode order prefilter shape coord).length = shape.length := by
    simp [resolvedWeights, hlen]
  rw [List.forall₂_iff_get]
  refine ⟨by rw [hl1, hlw], ?_⟩
  intro i h1' h2'
  obtain ⟨w, hw⟩ := hget i h1' (by rw [hlw]; exact h2')
  simp only [resolvedWeights, List.get_eq_getElem, List.getElem_map, List.getElem_zip] at hw
  obtain ⟨iw, hiw, heq⟩ := List.mem_map.1 hw
  rw [Prod.mk.injEq] at heq
  obtain ⟨h4, -⟩ := heq
  simp only [List.get_eq_getElem]
  rw [← h4]
  exact resolveIdx_lt mode _ (hpos _ (List.getElem_mem _))

/-- The per-axis weights of an in-range integer coordinate with `prefilter`
and `order ≥ 1` collapse to the single stored index (the per-axis
interpolating-spline property). -/
theorem axisWeights_natCast {order : ℕ} (ho : order ≠ 0) (c : ℕ) :
    axisWeights order true ((c : ℕ) : ℚ) = [(((c : ℕ) : ℤ), 1)] := by
  unfold axisWeights
  rw [if_neg ho, if_pos ⟨rfl, by simp⟩]
  simp

/-- Appending an exactly-integral in-range component coordinate to the tuple
interpolates the corresponding component volume alone: the separable spline
collapses along the trailing axis, so components never blend (with
`prefilter = true`). -/
theorem interpOne_last_axis {shape : List ℕ} {K c : ℕ} {data : List ℚ}
    {order : ℕ} {mode : String} {cval : ℚ} {coord : List ℚ}
    (hc : c < K) (ho : order ≠ 0)
    (hlen : coord.length = shape.length)
    (hpos : ∀ n ∈ shape, 0 < n)
    (hdl : data.length = shape.prod * K) :
    interpOne (shape ++ [K]) data order mode cval true (coord ++ [(c : ℚ)]) =
      interpOne shape (component K c data) order mode cval true coord := by
  have hK : 0 < K := by omega
  have hcast : ((c : ℚ)) + 1 ≤ (K : ℚ) := by exact_mod_cast Nat.succ_le_of_lt hc
  have hoob : outOfBounds (shape ++ [K]) (coord ++ [(c : ℚ)]) =
      outOfBounds shape coord := by
    unfold outOfBounds
    rw [List.zip_append hlen.symm, List.any_append]
    simp only [List.zip_cons_cons, List.zip_nil_right]
    have h2 : (([(K, (c : ℚ))] : List (ℕ × ℚ)).any
        fun p => decide (p.2 < 0) || decide (((p.1 : ℚ) - 1) < p.2)) = false := by
      simp only [List.any_cons, List.any_nil, Bool.or_false, Bool.or_eq_false_iff,
        decide_eq_false_iff_not, not_lt]
      refine ⟨by positivity, by linarith⟩
    rw [h2, Bool.or_false]
  unfold interpOne
  rw [hoob]
  split
  · rfl
  · have hrw : resolvedWeights mode order true (shape ++ [K]) (coord ++ [(c : ℚ)]) =
        resolvedWeights mode order true shape coord ++ [[(c, (1 : ℚ))]] := by
      unfold resolvedWeights
      rw [List.zip_append hlen.symm, List.map_append]
      congr 1
      simp only [List.zip_cons_cons, List.zip_nil_right, List.map_cons, List.map_nil]
      rw [axisWeights_natCast ho]
      simp [resolveIdx_coe mode hc]
    rw [hrw, gather_append_single, List.map_map]
    congr 1
    apply List.map_congr_left
    intro g hg
    have hb := resolved_bound hlen hpos hg
    have hglen : g.1.length = shape.length := List.Forall₂.length_eq hb
    have hflt : flatIdx shape g.1 < shape.prod := flatIdx_lt hb
    simp only [Function.comp]
    rw [flatIdx_append_single _ _ _ _ hglen]
    rw [component_getD data (by rw [hdl, Nat.mul_div_cancel _ hK]; exact hflt)]

/-- `getD` of a function mapped over `List.range`, in range. -/
theorem getD_range_map {β : Type} (f : ℕ → β) {L j : ℕ} (d : β) (hj : j < L) :
    ((List.range L).map f).getD j d = f j := by
  rw [getD_map_of_lt f _ 0 d (by simpa using hj)]
  rw [List.getD_eq_getElem _ _ (by simpa using hj), List.getElem_range]

/-- C3.  An (X, Y, Z, 3) source through a 4-D-aware transform with
`len(transform) = 3` onto an (X', Y', Z') reference (default `order = 3`,
`mode = "constant"`, `prefilter = true`) yields shape (X', Y', Z', 3), and
the `j`-th output value is the pure 3-D interpolation of the single
component volume `j mod 3` at the `j`-th coordinate of the one shared `map`
invocation — components are interpolated independently, each with the
spatial coordinate set the mapping produced for its volume. -/
theorem four_d_components_independent
    (t : Transform) (img : SpatialImage) (r : Grid)
    (X Y Z X' Y' Z' : ℕ) (cval : ℚ) (res : Resampled)
    (hish : img.shape = [X, Y, Z, 3])
    (hrsh : r.shape = [X', Y', Z'])
    (hnd : t.ndim = 4) (hlen3 : t.length = 3) (htf : t.toField = none)
    (hmap4 : ∀ pts, (t.mapPts pts).length = 3 * pts.length)
    (hX : 0 < X) (hY : 0 < Y) (hZ : 0 < Z) (hP : 0 < X' * Y' * Z')
    (hdl : img.data.length = X * Y * Z * 3)
    (hres : apply t img (some r) 3 "constant" cval true = .ok res) :
    res.shape = [X', Y', Z', 3] ∧
      res.values.length = 3 * (X' * Y' * Z') ∧
      ∀ j, j < res.values.length →
        res.values.getD j 0 =
          interpOne [X, Y, Z] (component 3 (j % 3) img.data) 3 "constant" cval true
            (toCoord (img.grid.affinv.apply
              ((t.mapPts (Grid.ndcoords r)).getD j (0, 0, 0)))) := by
  obtain ⟨-, hvals, hclen, hsh⟩ := apply_ok_inv rfl hres
  have hszr : Grid.sz r = X' * Y' * Z' := by
    simp only [Grid.sz, hrsh, List.prod_cons, List.prod_nil, mul_one]
    ring
  have hnc : (Grid.ndcoords r).length = X' * Y' * Z' := by
    simp [Grid.ndcoords, Grid.indexList, hszr]
  have hml : (t.mapPts (Grid.ndcoords r)).length = 3 * (X' * Y' * Z') := by
    rw [hmap4, hnc]
  have hpad : paddedShape t img.shape = [X, Y, Z, 3] := by
    simp [paddedShape, hish, hnd]
  have htg : targetsOf t img (some r) r =
      (List.range ((t.mapPts (Grid.ndcoords r)).map img.grid.affinv.apply).length).map
        fun j => toCoord (((t.mapPts (Grid.ndcoords r)).map
          img.grid.affinv.apply).getD j (0, 0, 0)) ++ [((j % t.length : ℕ) : ℚ)] := by
    simp [targetsOf, htf, hnd]
  have hil : ((t.mapPts (Grid.ndcoords r)).map img.grid.affinv.apply).length =
      3 * (X' * Y' * Z') := by
    rw [List.length_map, hml]
  have hvl : res.values.length = 3 * (X' * Y' * Z') := by
    rw [hvals, List.length_map, htg, List.length_map, List.length_range, hil]
  refine ⟨?_, hvl, ?_⟩
  · rw [hsh, hpad]
    rw [if_neg (by norm_num), hvl, hszr, hrsh]
    rw [Nat.mul_div_cancel 3 hP]
    rfl
  · intro j hj
    rw [hvl] at hj
    rw [hvals, htg]
    rw [getD_map_of_lt (interpOne (paddedShape t img.shape) img.data 3 "constant" cval true)
      _ ([] : List ℚ) _ (by rw [List.length_map, List.length_range, hil]; exact hj)]
    rw [getD_range_map _ ([] : List ℚ) (by rw [hil]; exact hj)]
    rw [hpad, hlen3]
    have hstep : interpOne [X, Y, Z, 3] img.data 3 "constant" cval true
        (toCoord (((t.mapPts (Grid.ndcoords r)).map img.grid.affinv.apply).getD j
          (0, 0, 0)) ++ [((j % 3 : ℕ) : ℚ)]) =
        interpOne [X, Y, Z] (component 3 (j % 3) img.data) 3 "constant" cval true
          (toCoord (((t.mapPts (Grid.ndcoords r)).map img.grid.affinv.apply).getD j
            (0, 0, 0))) := by
      have h34 : ([X, Y, Z, 3] : List ℕ) = [X, Y, Z] ++ [3] := rfl
      rw [h34]
      exact interpOne_last_axis (Nat.mod_lt _ (by norm_num)) (by norm_num)
        (by simp [toCoord]) (by simp [hX, hY, hZ])
        (by rw [hdl]; simp only [List.prod_cons, List.prod_nil, mul_one]; ring)
    rw [hstep]
    rw [getD_map_of_lt img.grid.affinv.apply _ (0, 0, 0) _ (by rw [hml]; exact hj)]

/-- Witness for C3 on a concrete (1,1,1,3) series mapped to itself. -/
theorem four_d_components_independent_witness :
    (⟨[1, 1, 1, 3], [10, 20, 30]⟩ : Resampled).shape = [1, 1, 1, 3] ∧
      ([10, 20, 30] : List ℚ).length = 3 * (1 * 1 * 1) ∧
      ∀ j, j < ([10, 20, 30] : List ℚ).length →
        ([10, 20, 30] : List ℚ).getD j 0 =
          interpOne [1, 1, 1] (component 3 (j % 3) img4d3.data) 3 "constant" 0 true
            (toCoord (img4d3.grid.affinv.apply
              ((t4d3.mapPts (Grid.ndcoords grid1)).getD j (0, 0, 0)))) :=
  four_d_components_independent t4d3 img4d3 grid1 1 1 1 1 1 1 0
    ⟨[1, 1, 1, 3], [10, 20, 30]⟩ rfl rfl rfl rfl rfl
    (fun pts => by simp [t4d3]; omega)
    (by decide) (by decide) (by decide) (by decide) (by decide) (by decide)

end

end NiT
